import Mathlib

/-!
Verification development for the gatekeeper API-testing engine.

Shallow embedding of the core components named by the specification:
the reference resolver (src/sat_core/parse_swagger_file.py and
src/parsers/swagger_parser.py), the HTTP execution client retry loop
(src/runners/api_client.py), the response validator
(src/sat_core/reporting.py), the positive-flow sequencer
(src/sat_core/run_positive_flow.py, src/runners/test_executor.py) and the
report type heuristic (src/reporters/test_reporter.py).

Python values decoded from JSON are modelled by the `Json` inductive below;
Python `None` is identified with `Json.null` (exactly as `json.loads` maps
JSON null to `None`).  Python dicts are association lists in insertion
order; Python sets of strings are `List String` with membership-checked
insertion.  Code that can raise an exception is modelled in `Except Unit`;
total code is modelled by total functions.
-/

/-- JSON value as produced by `json.loads`: objects are insertion-ordered
association lists, numbers are modelled as integers (no claim here depends
on float values). -/
inductive Json where
  | null : Json
  | bool (b : Bool) : Json
  | num (n : Int) : Json
  | str (s : String) : Json
  | arr (items : List Json) : Json
  | obj (fields : List (String × Json)) : Json

/-- Python `x is None` (JSON null decodes to Python `None`). -/
def Json.isNull : Json → Bool
  | .null => true
  | _ => false

/-- Python `dict.get(key)` on an association list (first matching key). -/
def lookupField : List (String × Json) → String → Option Json
  | [], _ => none
  | (k, v) :: rest, key => if k = key then some v else lookupField rest key

/-- The set held under a `"$ref"` key when its value is a string. -/
def refStr : Json → Finset String
  | .str s => {s}
  | _ => ∅

mutual

/-- All string values appearing under a `"$ref"` key anywhere in a JSON
tree.  Used only for the termination measure of the resolver. -/
def Json.refs : Json → Finset String
  | .null => ∅
  | .bool _ => ∅
  | .num _ => ∅
  | .str _ => ∅
  | .arr items => refsItems items
  | .obj fields => refsFields fields

/-- Reference strings of an object field list. -/
def refsFields : List (String × Json) → Finset String
  | [] => ∅
  | (k, v) :: rest => (if k = "$ref" then refStr v else ∅) ∪ v.refs ∪ refsFields rest

/-- Reference strings of an array item list. -/
def refsItems : List Json → Finset String
  | [] => ∅
  | j :: rest => j.refs ∪ refsItems rest

end

/-- Python `ref.startswith("#/")`. -/
def startsWithHashSlash (s : String) : Bool :=
  match s.data with
  | '#' :: '/' :: _ => true
  | _ => false

/-- Python `ref.lstrip("#/")`: drop every leading `#` or `/` character. -/
def pyLstripHashSlash (s : String) : String :=
  String.mk (s.data.dropWhile (fun c => c == '#' || c == '/'))

/-- Character-level splitter behind `splitSlash`. -/
def splitSlashAux : List Char → List Char → List String
  | [], acc => [String.mk acc.reverse]
  | c :: cs, acc =>
    if c = '/' then String.mk acc.reverse :: splitSlashAux cs []
    else splitSlashAux cs (c :: acc)

/-- Python `s.split("/")` (note `"".split("/") == [""]`). -/
def splitSlash (s : String) : List String :=
  splitSlashAux s.data []

/-- Pointer navigation loop of `resolve_ref` in
src/sat_core/parse_swagger_file.py lines 10-15: `node = node.get(p)` raises
`AttributeError` when `node` is not a dict (modelled `.error ()`); a missing
key, or a value that is JSON null (Python `None`), returns `None`
(modelled `.ok none`). -/
def navigate : Json → List String → Except Unit (Option Json)
  | node, [] => .ok (some node)
  | node, p :: ps =>
    match node with
    | .obj fields =>
      match lookupField fields p with
      | none => .ok none
      | some v => if v.isNull then .ok none else navigate v ps
    | _ => .error ()

/-- `resolve_ref` from src/sat_core/parse_swagger_file.py lines 6-15. -/
def resolve_ref (ref : String) (swagger : Json) : Except Unit (Option Json) :=
  if startsWithHashSlash ref then navigate swagger (splitSlash (pyLstripHashSlash ref))
  else .ok none

/-- Pointer navigation loop of `ReferenceResolver.resolve_reference` in
src/parsers/swagger_parser.py lines 43-52: it checks
`isinstance(node, dict) or part not in node` before stepping, so it is
total; a final value of JSON null is Python `None`, which the caller treats
as unresolved. -/
def navigateSafe : Json → List String → Option Json
  | node, [] => if node.isNull then none else some node
  | node, p :: ps =>
    match node with
    | .obj fields =>
      match lookupField fields p with
      | none => none
      | some v => navigateSafe v ps
    | _ => none

/-- `ReferenceResolver.resolve_reference` from src/parsers/swagger_parser.py
lines 28-56 (the surrounding try/except never fires; the body is total). -/
def resolve_reference (ref : String) (swagger : Json) : Option Json :=
  if startsWithHashSlash ref then navigateSafe swagger (splitSlash (pyLstripHashSlash ref))
  else none

/-- The two resolver variants differ only in how a `$ref` string is looked
up in the root document: `mode = false` is `resolve_ref`
(src/sat_core/parse_swagger_file.py, raises on a non-dict intermediate
node), `mode = true` is `ReferenceResolver.resolve_reference`
(src/parsers/swagger_parser.py, total).  A non-string value under `"$ref"`
raises in both variants (`TypeError` at `ref in seen` for unhashable
values, otherwise `AttributeError` at `ref.startswith`). -/
def resolveRefM (mode : Bool) (rv : Json) (swagger : Json) : Except Unit (Option Json) :=
  match rv with
  | .str ref => if mode then .ok (resolve_reference ref swagger) else resolve_ref ref swagger
  | _ => .error ()

theorem lookupField_refs {fields : List (String × Json)} {p : String} {v : Json}
    (h : lookupField fields p = some v) : v.refs ⊆ refsFields fields := by
  induction fields with
  | nil => simp [lookupField] at h
  | cons kv rest ih =>
    obtain ⟨k, w⟩ := kv
    simp only [lookupField] at h
    by_cases hk : k = p
    · simp only [hk, if_pos rfl] at h
      cases h
      intro x hx
      simp only [refsFields, Finset.mem_union]
      exact Or.inl (Or.inr hx)
    · rw [if_neg hk] at h
      intro x hx
      simp only [refsFields, Finset.mem_union]
      exact Or.inr (ih h hx)

theorem lookupField_ref_mem {fields : List (String × Json)} {ref : String}
    (h : lookupField fields "$ref" = some (.str ref)) : ref ∈ refsFields fields := by
  induction fields with
  | nil => simp [lookupField] at h
  | cons kv rest ih =>
    obtain ⟨k, w⟩ := kv
    simp only [lookupField] at h
    by_cases hk : k = "$ref"
    · simp only [hk, if_pos rfl] at h
      cases h
      simp [refsFields, refStr, hk]
    · rw [if_neg hk] at h
      simp only [refsFields, Finset.mem_union]
      exact Or.inr (ih h)

theorem navigate_refs {ps : List String} {node out : Json}
    (h : navigate node ps = .ok (some out)) : out.refs ⊆ node.refs := by
  induction ps generalizing node with
  | nil =>
    simp only [navigate, Except.ok.injEq, Option.some.injEq] at h
    exact h ▸ Finset.Subset.refl _
  | cons p ps ih =>
    match node with
    | .null | .bool _ | .num _ | .str _ | .arr _ => simp [navigate] at h
    | .obj fields =>
      match hl : lookupField fields p with
      | none => simp only [navigate, hl] at h; exact absurd h (by simp)
      | some v =>
        simp only [navigate, hl] at h
        by_cases hn : v.isNull = true
        · rw [if_pos hn] at h; simp at h
        · rw [if_neg hn] at h
          calc out.refs ⊆ v.refs := ih h
            _ ⊆ (Json.obj fields).refs := by
                  intro x hx
                  simp only [Json.refs]
                  exact lookupField_refs hl hx

theorem navigateSafe_refs {ps : List String} {node out : Json}
    (h : navigateSafe node ps = some out) : out.refs ⊆ node.refs := by
  induction ps generalizing node with
  | nil =>
    simp only [navigateSafe] at h
    by_cases hn : node.isNull = true
    · rw [if_pos hn] at h; simp at h
    · rw [if_neg hn] at h
      cases h
      exact Finset.Subset.refl _
  | cons p ps ih =>
    match node with
    | .null | .bool _ | .num _ | .str _ | .arr _ => simp [navigateSafe] at h
    | .obj fields =>
      match hl : lookupField fields p with
      | none => simp only [navigateSafe, hl] at h; exact absurd h (by simp)
      | some v =>
        simp only [navigateSafe, hl] at h
        calc out.refs ⊆ v.refs := ih h
          _ ⊆ (Json.obj fields).refs := by
                intro x hx
                simp only [Json.refs]
                exact lookupField_refs hl hx

theorem resolveRefM_refs {mode : Bool} {rv swagger out : Json}
    (h : resolveRefM mode rv swagger = .ok (some out)) : out.refs ⊆ swagger.refs := by
  match rv with
  | .null | .bool _ | .num _ | .arr _ | .obj _ => simp [resolveRefM] at h
  | .str ref =>
    simp only [resolveRefM] at h
    cases mode with
    | true =>
      simp only [if_true, Except.ok.injEq] at h
      unfold resolve_reference at h
      by_cases hs : startsWithHashSlash ref = true
      · rw [if_pos hs] at h; exact navigateSafe_refs h
      · rw [if_neg hs] at h; simp at h
    | false =>
      simp only [Bool.false_eq_true, if_false] at h
      unfold resolve_ref at h
      by_cases hs : startsWithHashSlash ref = true
      · rw [if_pos hs] at h; exact navigate_refs h
      · rw [if_neg hs] at h; simp at h

/-- Number of reference strings in `R` not yet in the visited list `seen`:
the first component of the resolver termination measure. -/
def seenMiss (R : Finset String) (seen : List String) : Nat :=
  (R.filter (fun r => r ∉ seen)).card

theorem seenMiss_mono {R' R : Finset String} {seen seen' : List String}
    (hR : R' ⊆ R) (hs : seen ⊆ seen') : seenMiss R' seen' ≤ seenMiss R seen := by
  apply Finset.card_le_card
  intro x hx
  simp only [Finset.mem_filter] at hx ⊢
  exact ⟨hR hx.1, fun hc => hx.2 (hs hc)⟩

theorem seenMiss_jump {swr o F : Finset String} {ref : String} {seen : List String}
    (hsub : o ⊆ swr) (href : ref ∈ F) (hns : ref ∉ seen) :
    seenMiss (swr ∪ o) (List.insert ref seen) < seenMiss (swr ∪ F) seen := by
  unfold seenMiss
  have hsubset : (swr ∪ o).filter (fun r => r ∉ List.insert ref seen) ⊆
      ((swr ∪ F).filter (fun r => r ∉ seen)).erase ref := by
    intro x hx
    simp only [Finset.mem_filter, Finset.mem_union, List.mem_insert_iff, not_or] at hx
    obtain ⟨hmem, hne, hnseen⟩ := hx
    apply Finset.mem_erase.mpr
    refine ⟨hne, Finset.mem_filter.mpr ⟨?_, hnseen⟩⟩
    rcases hmem with hm | hm
    · exact Finset.mem_union_left _ hm
    · exact Finset.mem_union_left _ (hsub hm)
  have hrefmem : ref ∈ (swr ∪ F).filter (fun r => r ∉ seen) :=
    Finset.mem_filter.mpr ⟨Finset.mem_union_right _ href, hns⟩
  calc ((swr ∪ o).filter (fun r => r ∉ List.insert ref seen)).card
      ≤ (((swr ∪ F).filter (fun r => r ∉ seen)).erase ref).card :=
        Finset.card_le_card hsubset
    _ < ((swr ∪ F).filter (fun r => r ∉ seen)).card :=
        Finset.card_erase_lt_of_mem hrefmem

theorem lexOfLe {a c b d : Nat} (h1 : a ≤ c) (h2 : b < d) :
    Prod.Lex (· < ·) (· < ·) (a, b) (c, d) := by
  rcases Nat.lt_or_ge a c with h | h
  · exact Prod.Lex.left _ _ h
  · have he : a = c := Nat.le_antisymm h1 h
    subst he
    exact Prod.Lex.right _ h2

theorem refs_field_head {k : String} {v : Json} {rest : List (String × Json)} :
    v.refs ⊆ refsFields ((k, v) :: rest) := by
  intro x hx
  simp only [refsFields, Finset.mem_union]
  exact Or.inl (Or.inr hx)

theorem refs_field_rest {k : String} {v : Json} {rest : List (String × Json)} :
    refsFields rest ⊆ refsFields ((k, v) :: rest) := by
  intro x hx
  simp only [refsFields, Finset.mem_union]
  exact Or.inr hx

theorem refs_item_head {j : Json} {rest : List Json} :
    j.refs ⊆ refsItems (j :: rest) := by
  intro x hx
  simp only [refsItems, Finset.mem_union]
  exact Or.inl hx

theorem refs_item_rest {j : Json} {rest : List Json} :
    refsItems rest ⊆ refsItems (j :: rest) := by
  intro x hx
  simp only [refsItems, Finset.mem_union]
  exact Or.inr hx

/-- Transport a resolver result along growth of the visited set. -/
def weakenSeen {seen seen' : List String} (h : seen ⊆ seen') :
    Except Unit (Json × { s : List String // seen' ⊆ s }) →
      Except Unit (Json × { s : List String // seen ⊆ s })
  | .error _ => .error ()
  | .ok (j, ⟨s, hs⟩) => .ok (j, ⟨s, h.trans hs⟩)

mutual

/-- The schema-resolution recursion shared verbatim by `resolve_schema`
(src/sat_core/parse_swagger_file.py lines 18-39, `mode = false`) and
`ReferenceResolver.resolve_schema_recursively`
(src/parsers/swagger_parser.py lines 58-103, `mode = true`); the two
sources are line-for-line the same algorithm and differ only in the
pointer lookup, captured by `resolveRefM`.  The Python `seen` set is one
mutable object threaded through every recursive call, including calls on
sibling dict values and list items; this state passing is modelled
explicitly, and the result carries the fact that `seen` only ever grows,
which also feeds the termination measure. -/
def resolveSchemaM (mode : Bool) (swagger : Json) (schema : Json) (seen : List String) :
    Except Unit (Json × { s : List String // seen ⊆ s }) :=
  match schema with
  | .obj fields =>
    match hl : lookupField fields "$ref" with
    | some (.str ref) =>
      if hseen : ref ∈ seen then
        .ok (.obj [("$ref", .str ref)], ⟨seen, fun _ hx => hx⟩)
      else
        match hres : resolveRefM mode (.str ref) swagger with
        | .error _ => .error ()
        | .ok none => .ok (.obj fields, ⟨List.insert ref seen, List.subset_insert ref seen⟩)
        | .ok (some resolved) =>
          weakenSeen (List.subset_insert ref seen)
            (resolveSchemaM mode swagger resolved (List.insert ref seen))
    | some _ => .error ()
    | none =>
      match resolveFieldsM mode swagger fields seen with
      | .error _ => .error ()
      | .ok (fields2, s) => .ok (.obj fields2, s)
  | .arr items =>
    match resolveItemsM mode swagger items seen with
    | .error _ => .error ()
    | .ok (items2, s) => .ok (.arr items2, s)
  | j => .ok (j, ⟨seen, fun _ hx => hx⟩)
termination_by (seenMiss (swagger.refs ∪ schema.refs) seen, sizeOf schema)
decreasing_by
  · simp only [Json.refs]
    exact Prod.Lex.left _ _
      (seenMiss_jump (resolveRefM_refs hres) (lookupField_ref_mem hl) hseen)
  · simp only [Json.refs]
    exact lexOfLe (Nat.le_refl _) (by simp)
  · simp only [Json.refs]
    exact lexOfLe (Nat.le_refl _) (by simp)

/-- The dict-comprehension arm
`{k: resolve_schema(v, swagger, seen) for k, v in schema.items()}`
with the shared `seen` set threaded left to right. -/
def resolveFieldsM (mode : Bool) (swagger : Json) (fields : List (String × Json)) (seen : List String) :
    Except Unit (List (String × Json) × { s : List String // seen ⊆ s }) :=
  match fields with
  | [] => .ok ([], ⟨seen, fun _ hx => hx⟩)
  | (k, v) :: rest =>
    match resolveSchemaM mode swagger v seen with
    | .error _ => .error ()
    | .ok (v2, ⟨s₁, h₁⟩) =>
      match resolveFieldsM mode swagger rest s₁ with
      | .error _ => .error ()
      | .ok (rest2, ⟨s₂, h₂⟩) => .ok ((k, v2) :: rest2, ⟨s₂, h₁.trans h₂⟩)
termination_by (seenMiss (swagger.refs ∪ refsFields fields) seen, sizeOf fields)
decreasing_by
  all_goals first
  | exact lexOfLe
      (seenMiss_mono (Finset.union_subset_union (Finset.Subset.refl _) refs_field_head)
        (List.Subset.refl _))
      (by simp; try omega)
  | exact lexOfLe
      (seenMiss_mono (Finset.union_subset_union (Finset.Subset.refl _) refs_field_rest) h₁)
      (by simp; try omega)

/-- The list-comprehension arm
`[resolve_schema(item, swagger, seen) for item in schema]`
with the shared `seen` set threaded left to right. -/
def resolveItemsM (mode : Bool) (swagger : Json) (items : List Json) (seen : List String) :
    Except Unit (List Json × { s : List String // seen ⊆ s }) :=
  match items with
  | [] => .ok ([], ⟨seen, fun _ hx => hx⟩)
  | j :: rest =>
    match resolveSchemaM mode swagger j seen with
    | .error _ => .error ()
    | .ok (j2, ⟨s₁, h₁⟩) =>
      match resolveItemsM mode swagger rest s₁ with
      | .error _ => .error ()
      | .ok (rest2, ⟨s₂, h₂⟩) => .ok (j2 :: rest2, ⟨s₂, h₁.trans h₂⟩)
termination_by (seenMiss (swagger.refs ∪ refsItems items) seen, sizeOf items)
decreasing_by
  all_goals first
  | exact lexOfLe
      (seenMiss_mono (Finset.union_subset_union (Finset.Subset.refl _) refs_item_head)
        (List.Subset.refl _))
      (by simp; try omega)
  | exact lexOfLe
      (seenMiss_mono (Finset.union_subset_union (Finset.Subset.refl _) refs_item_rest) h₁)
      (by simp; try omega)

end

/-- `resolve_schema(schema, swagger)` from src/sat_core/parse_swagger_file.py
with the default fresh `seen` set, exposing only the resolved value. -/
def resolve_schema (schema swagger : Json) : Except Unit Json :=
  (resolveSchemaM false swagger schema []).map Prod.fst

/-- `ReferenceResolver(swagger).resolve_schema_recursively(schema)` from
src/parsers/swagger_parser.py with the default fresh `seen_refs` set,
exposing only the resolved value. -/
def resolve_schema_recursively (swagger schema : Json) : Except Unit Json :=
  (resolveSchemaM true swagger schema []).map Prod.fst

theorem resolveSchemaM_cycle (mode : Bool) (swagger : Json)
    {fields : List (String × Json)} {ref : String} {seen : List String}
    (hl : lookupField fields "$ref" = some (.str ref)) (hseen : ref ∈ seen) :
    resolveSchemaM mode swagger (.obj fields) seen =
      .ok (.obj [("$ref", .str ref)], ⟨seen, fun _ hx => hx⟩) := by
  rw [resolveSchemaM]
  split <;> rename_i heq <;> rw [hl] at heq <;> try cases heq
  all_goals try (rename_i hno; exact (hno _ rfl).elim)
  rw [dif_pos hseen]

theorem resolveSchemaM_unresolved (mode : Bool) (swagger : Json)
    {fields : List (String × Json)} {ref : String} {seen : List String}
    (hl : lookupField fields "$ref" = some (.str ref)) (hseen : ref ∉ seen)
    (hres : resolveRefM mode (.str ref) swagger = .ok none) :
    resolveSchemaM mode swagger (.obj fields) seen =
      .ok (.obj fields, ⟨List.insert ref seen, List.subset_insert ref seen⟩) := by
  rw [resolveSchemaM]
  split <;> rename_i heq <;> rw [hl] at heq <;> try cases heq
  all_goals try (rename_i hno; exact (hno _ rfl).elim)
  rw [dif_neg hseen]
  split <;> rename_i heq2 <;> rw [hres] at heq2 <;> try cases heq2
  all_goals rfl

theorem resolveSchemaM_jump (mode : Bool) (swagger : Json)
    {fields : List (String × Json)} {ref : String} {seen : List String} {resolved : Json}
    (hl : lookupField fields "$ref" = some (.str ref)) (hseen : ref ∉ seen)
    (hres : resolveRefM mode (.str ref) swagger = .ok (some resolved)) :
    resolveSchemaM mode swagger (.obj fields) seen =
      weakenSeen (List.subset_insert ref seen)
        (resolveSchemaM mode swagger resolved (List.insert ref seen)) := by
  rw [resolveSchemaM]
  split <;> rename_i heq <;> rw [hl] at heq <;> try cases heq
  all_goals try (rename_i hno; exact (hno _ rfl).elim)
  rw [dif_neg hseen]
  split <;> rename_i heq2 <;> rw [hres] at heq2 <;> try cases heq2
  all_goals rfl

theorem resolveSchemaM_raise (mode : Bool) (swagger : Json)
    {fields : List (String × Json)} {ref : String} {seen : List String}
    (hl : lookupField fields "$ref" = some (.str ref)) (hseen : ref ∉ seen)
    (hres : resolveRefM mode (.str ref) swagger = .error ()) :
    resolveSchemaM mode swagger (.obj fields) seen = .error () := by
  rw [resolveSchemaM]
  split <;> rename_i heq <;> rw [hl] at heq <;> try cases heq
  all_goals try (rename_i hno; exact (hno _ rfl).elim)
  rw [dif_neg hseen]
  split <;> rename_i heq2 <;> rw [hres] at heq2 <;> try cases heq2
  all_goals rfl

theorem resolveSchemaM_noref (mode : Bool) (swagger : Json)
    {fields : List (String × Json)} {seen : List String}
    (hl : lookupField fields "$ref" = none) :
    resolveSchemaM mode swagger (.obj fields) seen =
      (match resolveFieldsM mode swagger fields seen with
       | .error _ => .error ()
       | .ok (fields2, s) => .ok (.obj fields2, s)) := by
  rw [resolveSchemaM]
  split <;> rename_i heq <;> rw [hl] at heq <;> try cases heq
  all_goals rfl


theorem resolveSchemaM_null (mode : Bool) (swagger : Json) (seen : List String) :
    resolveSchemaM mode swagger .null seen = .ok (.null, ⟨seen, fun _ hx => hx⟩) := by
  rw [resolveSchemaM] <;> simp

theorem resolveSchemaM_bool (mode : Bool) (swagger : Json) (b : Bool) (seen : List String) :
    resolveSchemaM mode swagger (.bool b) seen = .ok (.bool b, ⟨seen, fun _ hx => hx⟩) := by
  rw [resolveSchemaM] <;> simp

theorem resolveSchemaM_num (mode : Bool) (swagger : Json) (n : Int) (seen : List String) :
    resolveSchemaM mode swagger (.num n) seen = .ok (.num n, ⟨seen, fun _ hx => hx⟩) := by
  rw [resolveSchemaM] <;> simp

theorem resolveSchemaM_str (mode : Bool) (swagger : Json) (s : String) (seen : List String) :
    resolveSchemaM mode swagger (.str s) seen = .ok (.str s, ⟨seen, fun _ hx => hx⟩) := by
  rw [resolveSchemaM] <;> simp

theorem resolveSchemaM_arr (mode : Bool) (swagger : Json) (items : List Json) (seen : List String) :
    resolveSchemaM mode swagger (.arr items) seen =
      (match resolveItemsM mode swagger items seen with
       | .error _ => .error ()
       | .ok (items2, s) => .ok (.arr items2, s)) := by
  rw [resolveSchemaM]

theorem resolveFieldsM_nil (mode : Bool) (swagger : Json) (seen : List String) :
    resolveFieldsM mode swagger [] seen = .ok ([], ⟨seen, fun _ hx => hx⟩) := by
  rw [resolveFieldsM]

theorem resolveFieldsM_cons (mode : Bool) (swagger : Json) (k : String) (v : Json)
    (rest : List (String × Json)) (seen : List String) :
    resolveFieldsM mode swagger ((k, v) :: rest) seen =
      (match resolveSchemaM mode swagger v seen with
       | .error _ => .error ()
       | .ok (v2, ⟨s₁, h₁⟩) =>
         match resolveFieldsM mode swagger rest s₁ with
         | .error _ => .error ()
         | .ok (rest2, ⟨s₂, h₂⟩) => .ok ((k, v2) :: rest2, ⟨s₂, h₁.trans h₂⟩)) := by
  rw [resolveFieldsM]

theorem resolveItemsM_nil (mode : Bool) (swagger : Json) (seen : List String) :
    resolveItemsM mode swagger [] seen = .ok ([], ⟨seen, fun _ hx => hx⟩) := by
  rw [resolveItemsM]

theorem resolveItemsM_cons (mode : Bool) (swagger : Json) (j : Json)
    (rest : List Json) (seen : List String) :
    resolveItemsM mode swagger (j :: rest) seen =
      (match resolveSchemaM mode swagger j seen with
       | .error _ => .error ()
       | .ok (j2, ⟨s₁, h₁⟩) =>
         match resolveItemsM mode swagger rest s₁ with
         | .error _ => .error ()
         | .ok (rest2, ⟨s₂, h₂⟩) => .ok (j2 :: rest2, ⟨s₂, h₁.trans h₂⟩)) := by
  rw [resolveItemsM]

/-- Forget the seen-growth proof carried by resolver results. -/
def toPlain {α : Type} {seen : List String} :
    Except Unit (α × { s : List String // seen ⊆ s }) → Except Unit (α × List String)
  | .error _ => .error ()
  | .ok (a, s) => .ok (a, s.val)

theorem toPlain_eq_error {α : Type} {seen : List String}
    {e : Except Unit (α × { s : List String // seen ⊆ s })}
    (h : toPlain e = .error ()) : e = .error () := by
  match e with
  | .error u => cases u; rfl
  | .ok (a, s) => simp [toPlain] at h

theorem toPlain_eq_ok {α : Type} {seen : List String}
    {e : Except Unit (α × { s : List String // seen ⊆ s })} {a : α} {s : List String}
    (h : toPlain e = .ok (a, s)) : ∃ hs : seen ⊆ s, e = .ok (a, ⟨s, hs⟩) := by
  match e with
  | .error u => simp [toPlain] at h
  | .ok (b, ⟨t, ht⟩) =>
    simp only [toPlain, Except.ok.injEq, Prod.mk.injEq] at h
    obtain ⟨hb, hts⟩ := h
    subst hb
    subst hts
    exact ⟨ht, rfl⟩

theorem toPlain_weakenSeen {seen seen' : List String} (h : seen ⊆ seen')
    (e : Except Unit (Json × { s : List String // seen' ⊆ s })) :
    toPlain (weakenSeen h e) = toPlain e := by
  match e with
  | .error u => rfl
  | .ok (a, ⟨t, ht⟩) => rfl

mutual

/-- Fuel-bounded executable mirror of `resolveSchemaM`, used only to
evaluate the resolver on concrete documents; `resolveF_sound` below proves
it agrees with `resolveSchemaM` whenever it returns a value. -/
def resolveSchemaF (mode : Bool) (swagger : Json) :
    Nat → Json → List String → Option (Except Unit (Json × List String))
  | 0, _, _ => none
  | fuel + 1, schema, seen =>
    match schema with
    | .obj fields =>
      match lookupField fields "$ref" with
      | some (.str ref) =>
        if ref ∈ seen then some (.ok (.obj [("$ref", .str ref)], seen))
        else
          match resolveRefM mode (.str ref) swagger with
          | .error _ => some (.error ())
          | .ok none => some (.ok (.obj fields, List.insert ref seen))
          | .ok (some resolved) => resolveSchemaF mode swagger fuel resolved (List.insert ref seen)
      | some _ => some (.error ())
      | none =>
        match resolveFieldsF mode swagger fuel fields seen with
        | none => none
        | some (.error _) => some (.error ())
        | some (.ok (fields2, s)) => some (.ok (.obj fields2, s))
    | .arr items =>
      match resolveItemsF mode swagger fuel items seen with
      | none => none
      | some (.error _) => some (.error ())
      | some (.ok (items2, s)) => some (.ok (.arr items2, s))
    | j => some (.ok (j, seen))

/-- Fuel-bounded executable mirror of `resolveFieldsM`. -/
def resolveFieldsF (mode : Bool) (swagger : Json) :
    Nat → List (String × Json) → List String →
      Option (Except Unit (List (String × Json) × List String))
  | 0, _, _ => none
  | fuel + 1, fields, seen =>
    match fields with
    | [] => some (.ok ([], seen))
    | (k, v) :: rest =>
      match resolveSchemaF mode swagger fuel v seen with
      | none => none
      | some (.error _) => some (.error ())
      | some (.ok (v2, s₁)) =>
        match resolveFieldsF mode swagger fuel rest s₁ with
        | none => none
        | some (.error _) => some (.error ())
        | some (.ok (rest2, s₂)) => some (.ok ((k, v2) :: rest2, s₂))

/-- Fuel-bounded executable mirror of `resolveItemsM`. -/
def resolveItemsF (mode : Bool) (swagger : Json) :
    Nat → List Json → List String → Option (Except Unit (List Json × List String))
  | 0, _, _ => none
  | fuel + 1, items, seen =>
    match items with
    | [] => some (.ok ([], seen))
    | j :: rest =>
      match resolveSchemaF mode swagger fuel j seen with
      | none => none
      | some (.error _) => some (.error ())
      | some (.ok (j2, s₁)) =>
        match resolveItemsF mode swagger fuel rest s₁ with
        | none => none
        | some (.error _) => some (.error ())
        | some (.ok (rest2, s₂)) => some (.ok (j2 :: rest2, s₂))

end

theorem resolveSchemaM_badref (mode : Bool) (swagger : Json)
    {fields : List (String × Json)} {rv : Json} {seen : List String}
    (hl : lookupField fields "$ref" = some rv) (hnot : ∀ s, rv ≠ Json.str s) :
    resolveSchemaM mode swagger (.obj fields) seen = .error () := by
  rw [resolveSchemaM]
  split <;> rename_i heq <;> rw [hl] at heq <;> try cases heq
  all_goals first
  | rfl
  | exact absurd rfl (hnot _)

/-- Soundness of the executable mirror: whenever it returns a value within
its fuel bound, that value is the (proof-stripped) result of the resolver. -/
theorem resolveF_sound (mode : Bool) (swagger : Json) :
    ∀ fuel : Nat,
    (∀ (schema : Json) (seen : List String) (r : Except Unit (Json × List String)),
        resolveSchemaF mode swagger fuel schema seen = some r →
        toPlain (resolveSchemaM mode swagger schema seen) = r) ∧
    (∀ (fields : List (String × Json)) (seen : List String)
        (r : Except Unit (List (String × Json) × List String)),
        resolveFieldsF mode swagger fuel fields seen = some r →
        toPlain (resolveFieldsM mode swagger fields seen) = r) ∧
    (∀ (items : List Json) (seen : List String)
        (r : Except Unit (List Json × List String)),
        resolveItemsF mode swagger fuel items seen = some r →
        toPlain (resolveItemsM mode swagger items seen) = r) := by
  intro fuel
  induction fuel with
  | zero =>
    refine ⟨?_, ?_, ?_⟩ <;> intro _ _ _ h <;>
      simp [resolveSchemaF, resolveFieldsF, resolveItemsF] at h
  | succ fuel ih =>
    obtain ⟨ihS, ihF, ihI⟩ := ih
    refine ⟨?_, ?_, ?_⟩
    · intro schema seen r h
      match schema with
      | .null =>
        simp only [resolveSchemaF] at h
        cases h
        rw [resolveSchemaM_null]
        rfl
      | .bool b =>
        simp only [resolveSchemaF] at h
        cases h
        rw [resolveSchemaM_bool]
        rfl
      | .num n =>
        simp only [resolveSchemaF] at h
        cases h
        rw [resolveSchemaM_num]
        rfl
      | .str s =>
        simp only [resolveSchemaF] at h
        cases h
        rw [resolveSchemaM_str]
        rfl
      | .arr items =>
        simp only [resolveSchemaF] at h
        rw [resolveSchemaM_arr]
        cases hI : resolveItemsF mode swagger fuel items seen with
        | none => rw [hI] at h; cases h
        | some x =>
          rw [hI] at h
          have hxe := ihI items seen x hI
          cases x with
          | error u =>
            rw [toPlain_eq_error hxe]
            cases h
            rfl
          | ok p =>
            obtain ⟨items2, s⟩ := p
            obtain ⟨hs, he⟩ := toPlain_eq_ok hxe
            rw [he]
            cases h
            rfl
      | .obj fields =>
        simp only [resolveSchemaF] at h
        cases hl : lookupField fields "$ref" with
        | none =>
          rw [hl] at h
          have h2 : (match resolveFieldsF mode swagger fuel fields seen with
              | none => none
              | some (.error _) => some (Except.error ())
              | some (.ok (fields2, s)) =>
                some (Except.ok (Json.obj fields2, s))) = some r := h
          rw [resolveSchemaM_noref mode swagger hl]
          cases hFf : resolveFieldsF mode swagger fuel fields seen with
          | none => rw [hFf] at h2; cases h2
          | some x =>
            rw [hFf] at h2
            have hxe := ihF fields seen x hFf
            cases x with
            | error u =>
              rw [toPlain_eq_error hxe]
              cases h2
              rfl
            | ok p =>
              obtain ⟨fields2, s⟩ := p
              obtain ⟨hs, he⟩ := toPlain_eq_ok hxe
              rw [he]
              cases h2
              rfl
        | some rv =>
          rw [hl] at h
          match rv with
          | .null | .bool _ | .num _ | .arr _ | .obj _ =>
            cases h
            rw [resolveSchemaM_badref mode swagger hl (by intro s hc; cases hc)]
            rfl
          | .str ref =>
            have h2 : (if ref ∈ seen then
                  some (Except.ok (Json.obj [("$ref", Json.str ref)], seen))
                else
                  match resolveRefM mode (.str ref) swagger with
                  | .error _ => some (Except.error ())
                  | .ok none => some (Except.ok (Json.obj fields, List.insert ref seen))
                  | .ok (some resolved) =>
                    resolveSchemaF mode swagger fuel resolved (List.insert ref seen)) =
                some r := h
            by_cases hseen : ref ∈ seen
            · rw [if_pos hseen] at h2
              cases h2
              rw [resolveSchemaM_cycle mode swagger hl hseen]
              rfl
            · rw [if_neg hseen] at h2
              cases hres : resolveRefM mode (.str ref) swagger with
              | error u =>
                cases u
                rw [hres] at h2
                cases h2
                rw [resolveSchemaM_raise mode swagger hl hseen hres]
                rfl
              | ok o =>
                cases o with
                | none =>
                  rw [hres] at h2
                  cases h2
                  rw [resolveSchemaM_unresolved mode swagger hl hseen hres]
                  rfl
                | some resolved =>
                  rw [hres] at h2
                  rw [resolveSchemaM_jump mode swagger hl hseen hres, toPlain_weakenSeen]
                  exact ihS resolved (List.insert ref seen) r h2
    · intro fields seen r h
      match fields with
      | [] =>
        simp only [resolveFieldsF] at h
        cases h
        rw [resolveFieldsM_nil]
        rfl
      | (k, v) :: rest =>
        simp only [resolveFieldsF] at h
        rw [resolveFieldsM_cons]
        cases hv : resolveSchemaF mode swagger fuel v seen with
        | none => rw [hv] at h; cases h
        | some x =>
          rw [hv] at h
          have hxe := ihS v seen x hv
          cases x with
          | error u =>
            rw [toPlain_eq_error hxe]
            cases h
            rfl
          | ok p =>
            obtain ⟨v2, s₁⟩ := p
            obtain ⟨hs₁, he₁⟩ := toPlain_eq_ok hxe
            rw [he₁]
            show toPlain (match resolveFieldsM mode swagger rest s₁ with
              | .error _ => .error ()
              | .ok (rest2, ⟨s₂, h₂⟩) =>
                .ok ((k, v2) :: rest2, ⟨s₂, hs₁.trans h₂⟩)) = r
            have h2 : (match resolveFieldsF mode swagger fuel rest s₁ with
                | none => none
                | some (.error _) => some (Except.error ())
                | some (.ok (rest2, s₂)) =>
                  some (Except.ok ((k, v2) :: rest2, s₂))) = some r := h
            cases hrest : resolveFieldsF mode swagger fuel rest s₁ with
            | none => rw [hrest] at h2; cases h2
            | some y =>
              rw [hrest] at h2
              have hye := ihF rest s₁ y hrest
              cases y with
              | error u =>
                rw [toPlain_eq_error hye]
                cases h2
                rfl
              | ok q =>
                obtain ⟨rest2, s₂⟩ := q
                obtain ⟨hs₂, he₂⟩ := toPlain_eq_ok hye
                rw [he₂]
                cases h2
                rfl
    · intro items seen r h
      match items with
      | [] =>
        simp only [resolveItemsF] at h
        cases h
        rw [resolveItemsM_nil]
        rfl
      | j :: rest =>
        simp only [resolveItemsF] at h
        rw [resolveItemsM_cons]
        cases hj : resolveSchemaF mode swagger fuel j seen with
        | none => rw [hj] at h; cases h
        | some x =>
          rw [hj] at h
          have hxe := ihS j seen x hj
          cases x with
          | error u =>
            rw [toPlain_eq_error hxe]
            cases h
            rfl
          | ok p =>
            obtain ⟨j2, s₁⟩ := p
            obtain ⟨hs₁, he₁⟩ := toPlain_eq_ok hxe
            rw [he₁]
            show toPlain (match resolveItemsM mode swagger rest s₁ with
              | .error _ => .error ()
              | .ok (rest2, ⟨s₂, h₂⟩) =>
                .ok (j2 :: rest2, ⟨s₂, hs₁.trans h₂⟩)) = r
            have h2 : (match resolveItemsF mode swagger fuel rest s₁ with
                | none => none
                | some (.error _) => some (Except.error ())
                | some (.ok (rest2, s₂)) =>
                  some (Except.ok (j2 :: rest2, s₂))) = some r := h
            cases hrest : resolveItemsF mode swagger fuel rest s₁ with
            | none => rw [hrest] at h2; cases h2
            | some y =>
              rw [hrest] at h2
              have hye := ihI rest s₁ y hrest
              cases y with
              | error u =>
                rw [toPlain_eq_error hye]
                cases h2
                rfl
              | ok q =>
                obtain ⟨rest2, s₂⟩ := q
                obtain ⟨hs₂, he₂⟩ := toPlain_eq_ok hye
                rw [he₂]
                cases h2
                rfl

/-- Cyclic specification document: schema A references B and B references
A via raw pointers. -/
def cycDoc : Json := .obj [("components", .obj [("schemas", .obj [
  ("A", .obj [("type", .str "object"),
              ("properties", .obj [("b", .obj [("$ref", .str "#/components/schemas/B")])])]),
  ("B", .obj [("properties", .obj [("a", .obj [("$ref", .str "#/components/schemas/A")])])])])])]

/-- A schema node referencing the cyclic schema A. -/
def cycSchema : Json := .obj [("$ref", .str "#/components/schemas/A")]

/-- Resolution of `cycSchema` against `cycDoc`: the pointer that closed the
cycle is left literally as a raw reference marker. -/
def cycResolved : Json :=
  .obj [("type", .str "object"),
        ("properties", .obj [("b", .obj [("properties",
           .obj [("a", .obj [("$ref", .str "#/components/schemas/A")])])])])]

/-- Evaluation of the sat_core resolver on the concrete cyclic document. -/
theorem cycEval_sat : resolve_schema cycSchema cycDoc = .ok cycResolved := by
  have hF : resolveSchemaF false cycDoc 20 cycSchema [] =
      some (.ok (cycResolved, ["#/components/schemas/B", "#/components/schemas/A"])) := by rfl
  obtain ⟨hs, he⟩ := toPlain_eq_ok ((resolveF_sound false cycDoc 20).1 cycSchema [] _ hF)
  unfold resolve_schema
  rw [he]
  rfl

/-- Evaluation of the parsers resolver on the concrete cyclic document. -/
theorem cycEval_par : resolve_schema_recursively cycDoc cycSchema = .ok cycResolved := by
  have hF : resolveSchemaF true cycDoc 20 cycSchema [] =
      some (.ok (cycResolved, ["#/components/schemas/B", "#/components/schemas/A"])) := by rfl
  obtain ⟨hs, he⟩ := toPlain_eq_ok ((resolveF_sound true cycDoc 20).1 cycSchema [] _ hF)
  unfold resolve_schema_recursively
  rw [he]
  rfl

/-- C1: on a specification with a reference cycle A-B-A, schema resolution
terminates (both resolver variants are total Lean functions; the concrete
evaluations below witness termination with a value) and every pointer that
closes a cycle appears literally as a raw reference marker: in general a
pointer already in the visited set yields exactly the raw marker object,
and on the concrete cyclic document both `resolve_schema` and
`resolve_schema_recursively` produce the fully expanded output with the
cycle-closing pointer kept verbatim. -/
theorem claim1_cycle_safe_resolution :
    (∀ (mode : Bool) (swagger : Json) (fields : List (String × Json)) (ref : String)
        (seen : List String),
        lookupField fields "$ref" = some (.str ref) → ref ∈ seen →
        resolveSchemaM mode swagger (.obj fields) seen =
          .ok (.obj [("$ref", .str ref)], ⟨seen, fun _ hx => hx⟩)) ∧
    resolve_schema cycSchema cycDoc = .ok cycResolved ∧
    resolve_schema_recursively cycDoc cycSchema = .ok cycResolved :=
  ⟨fun mode swagger fields ref seen hl hseen => resolveSchemaM_cycle mode swagger hl hseen,
   cycEval_sat, cycEval_par⟩

/-- Witness for C1: the general cycle-marker statement applied at the
concrete cyclic document with the pointer already visited. -/
theorem claim1_cycle_safe_resolution_witness :
    resolveSchemaM false cycDoc (.obj [("$ref", .str "#/components/schemas/A")])
        ["#/components/schemas/A"] =
      .ok (.obj [("$ref", .str "#/components/schemas/A")],
        ⟨["#/components/schemas/A"], fun _ hx => hx⟩) :=
  claim1_cycle_safe_resolution.1 false cycDoc _ _ _ (by rfl) (by simp)

/-- Acyclic document with one shared schema S. -/
def sibDoc : Json := .obj [("defs", .obj [("S", .obj [("type", .str "string")])])]

/-- Schema referencing the shared schema S from two sibling branches;
neither occurrence lies on the other's reference chain. -/
def sibSchema : Json :=
  .obj [("a", .obj [("$ref", .str "#/defs/S")]), ("b", .obj [("$ref", .str "#/defs/S")])]

/-- What the resolvers actually produce on `sibSchema`: the first sibling
occurrence is inlined, the second comes back as the raw reference marker. -/
def sibResolved : Json :=
  .obj [("a", .obj [("type", .str "string")]), ("b", .obj [("$ref", .str "#/defs/S")])]

/-- The fully inlined output that a per-resolution-chain visited set would
produce. -/
def sibInlined : Json :=
  .obj [("a", .obj [("type", .str "string")]), ("b", .obj [("type", .str "string")])]

/-- Evaluation of the sat_core resolver on the sibling-reuse document. -/
theorem sibEval_sat : resolve_schema sibSchema sibDoc = .ok sibResolved := by
  have hF : resolveSchemaF false sibDoc 20 sibSchema [] =
      some (.ok (sibResolved, ["#/defs/S"])) := by rfl
  obtain ⟨hs, he⟩ := toPlain_eq_ok ((resolveF_sound false sibDoc 20).1 sibSchema [] _ hF)
  unfold resolve_schema
  rw [he]
  rfl

/-- Evaluation of the parsers resolver on the sibling-reuse document. -/
theorem sibEval_par : resolve_schema_recursively sibDoc sibSchema = .ok sibResolved := by
  have hF : resolveSchemaF true sibDoc 20 sibSchema [] =
      some (.ok (sibResolved, ["#/defs/S"])) := by rfl
  obtain ⟨hs, he⟩ := toPlain_eq_ok ((resolveF_sound true sibDoc 20).1 sibSchema [] _ hF)
  unfold resolve_schema_recursively
  rw [he]
  rfl

/-- After the first of two sibling fields is resolved with visited set
grown to s₁, the second sibling is resolved under that same s₁, so a
pointer already collected there is suppressed to the raw marker. -/
theorem resolveFieldsM_pair_marker (mode : Bool) (swagger : Json)
    {k₁ k₂ ref : String} {v₁ v₁r : Json} {seen s₁ : List String} {hs₁ : seen ⊆ s₁}
    (h : resolveSchemaM mode swagger v₁ seen = .ok (v₁r, ⟨s₁, hs₁⟩)) (hmem : ref ∈ s₁) :
    resolveFieldsM mode swagger [(k₁, v₁), (k₂, .obj [("$ref", .str ref)])] seen =
      .ok ([(k₁, v₁r), (k₂, .obj [("$ref", .str ref)])], ⟨s₁, hs₁⟩) := by
  have inner : resolveFieldsM mode swagger [(k₂, .obj [("$ref", .str ref)])] s₁ =
      .ok ([(k₂, .obj [("$ref", .str ref)])], ⟨s₁, fun _ hx => hx⟩) := by
    rw [resolveFieldsM_cons,
        resolveSchemaM_cycle mode swagger
          (show lookupField [("$ref", Json.str ref)] "$ref" = some (.str ref) from rfl) hmem]
    show ((match resolveFieldsM mode swagger ([] : List (String × Json)) s₁ with
        | Except.error _ => Except.error ()
        | Except.ok (rest2, ⟨s₂, h₂⟩) =>
          Except.ok ((k₂, Json.obj [("$ref", Json.str ref)]) :: rest2,
            ⟨s₂, fun _ hx => h₂ hx⟩)) :
        Except Unit (List (String × Json) × { s : List String // s₁ ⊆ s })) =
      Except.ok ([(k₂, Json.obj [("$ref", Json.str ref)])], ⟨s₁, fun _ hx => hx⟩)
    rw [resolveFieldsM_nil]
  rw [resolveFieldsM_cons, h]
  show ((match resolveFieldsM mode swagger [(k₂, .obj [("$ref", .str ref)])] s₁ with
      | Except.error _ => Except.error ()
      | Except.ok (rest2, ⟨s₂, h₂⟩) =>
        Except.ok ((k₁, v₁r) :: rest2, ⟨s₂, fun _ hx => h₂ (hs₁ hx)⟩)) :
      Except Unit (List (String × Json) × { s : List String // seen ⊆ s })) =
    Except.ok ([(k₁, v₁r), (k₂, .obj [("$ref", .str ref)])], ⟨s₁, hs₁⟩)
  rw [inner]

/-- C2 counterexample: on the acyclic document `sibDoc`, the shared schema
S is referenced from two sibling branches of `sibSchema`, yet both
resolvers inline only the first occurrence and return the raw reference
marker for the second — the output differs from the fully inlined one the
claim requires. -/
theorem claim2_sibling_reuse_counterexample :
    resolve_schema sibSchema sibDoc = .ok sibResolved ∧
    resolve_schema_recursively sibDoc sibSchema = .ok sibResolved ∧
    sibResolved ≠ sibInlined := by
  refine ⟨sibEval_sat, sibEval_par, ?_⟩
  intro hc
  simp [sibResolved, sibInlined] at hc

/-- C2 (amended): the visited set is not scoped to a single resolution
chain — it is one mutable set threaded through sibling branches of the
same top-level resolution — so when a shared schema is referenced from two
sibling branches, the first occurrence is fully inlined and the second is
suppressed to the raw reference marker: concretely on `sibDoc`, and in
general whenever resolving the first sibling leaves the pointer in the
returned visited set. -/
theorem claim2_sibling_reuse_amended :
    resolve_schema sibSchema sibDoc = .ok sibResolved ∧
    resolve_schema_recursively sibDoc sibSchema = .ok sibResolved ∧
    (∀ (mode : Bool) (swagger : Json) (k₁ k₂ ref : String) (v₁ v₁r : Json)
        (seen s₁ : List String) (hs₁ : seen ⊆ s₁),
        resolveSchemaM mode swagger v₁ seen = .ok (v₁r, ⟨s₁, hs₁⟩) → ref ∈ s₁ →
        resolveFieldsM mode swagger [(k₁, v₁), (k₂, .obj [("$ref", .str ref)])] seen =
          .ok ([(k₁, v₁r), (k₂, .obj [("$ref", .str ref)])], ⟨s₁, hs₁⟩)) :=
  ⟨sibEval_sat, sibEval_par,
   fun mode swagger k₁ k₂ ref v₁ v₁r seen s₁ hs₁ h hmem =>
     resolveFieldsM_pair_marker mode swagger h hmem⟩

/-- Witness for C2 (amended): a first sibling that resolves without growing
the visited set beyond the pointer already present, and a second sibling
holding that pointer, which is returned as a raw marker. -/
theorem claim2_sibling_reuse_witness :
    resolveFieldsM false (.obj []) [("a", .null), ("b", .obj [("$ref", .str "r")])] ["r"] =
      .ok ([("a", .null), ("b", .obj [("$ref", .str "r")])], ⟨["r"], fun _ hx => hx⟩) :=
  claim2_sibling_reuse_amended.2.2 false (.obj []) "a" "b" "r" .null .null ["r"] ["r"]
    (fun _ hx => hx) (resolveSchemaM_null false (.obj []) ["r"]) (by simp)

/-- Document in which pointer navigation crosses a non-object node: the
path segment b must be looked up inside a JSON array. -/
def nonObjDoc : Json := .obj [("a", .arr [.num 1])]

/-- Schema referencing a path whose navigation crosses the array. -/
def nonObjSchema : Json := .obj [("$ref", .str "#/a/b")]

/-- C3 counterexample: on `nonObjDoc`, navigating the pointer target of
`nonObjSchema` reaches a JSON array and `resolve_ref` executes
`node.get(p)` on it, raising AttributeError, which propagates out of
`resolve_schema` (modelled as `.error ()`): the sat_core resolver does
raise on a non-object intermediate node instead of returning the schema
verbatim. -/
theorem claim3_unresolved_ref_counterexample :
    resolve_schema nonObjSchema nonObjDoc = .error () := by
  have hF : resolveSchemaF false nonObjDoc 20 nonObjSchema [] = some (.error ()) := by rfl
  have he := toPlain_eq_error ((resolveF_sound false nonObjDoc 20).1 nonObjSchema [] _ hF)
  unfold resolve_schema
  rw [he]
  rfl

/-- C3 (amended): a reference whose pointer lookup reports no target —
in particular any missing path segment — makes both resolver variants
return the referencing schema node verbatim without raising; the parsers
variant `resolve_reference` never raises at all (a non-object intermediate
node just yields an unresolved reference), but the sat_core `resolve_ref`
raises AttributeError on a non-object intermediate node. -/
theorem claim3_unresolved_ref_amended :
    (∀ (mode : Bool) (swagger : Json) (fields : List (String × Json)) (ref : String)
        (seen : List String),
        lookupField fields "$ref" = some (.str ref) → ref ∉ seen →
        resolveRefM mode (.str ref) swagger = .ok none →
        resolveSchemaM mode swagger (.obj fields) seen =
          .ok (.obj fields, ⟨List.insert ref seen, List.subset_insert ref seen⟩)) ∧
    (∀ (ref : String) (swagger : Json),
        resolveRefM true (.str ref) swagger = .ok (resolve_reference ref swagger)) :=
  ⟨fun mode swagger fields ref seen hl hseen hres =>
     resolveSchemaM_unresolved mode swagger hl hseen hres,
   fun _ _ => rfl⟩

/-- Witness for C3 (amended): a pointer to a missing key is returned
verbatim by the sat_core resolver. -/
theorem claim3_unresolved_ref_witness :
    resolveSchemaM false (.obj []) (.obj [("$ref", .str "#/nope")]) [] =
      .ok (.obj [("$ref", .str "#/nope")],
        ⟨List.insert "#/nope" [], List.subset_insert "#/nope" []⟩) :=
  claim3_unresolved_ref_amended.1 false (.obj []) _ _ _ (by rfl) (by simp) (by rfl)

/-- Outcome of one `session.request` attempt as observed by
`APIClient.make_request` (src/runners/api_client.py lines 135-147): a
timeout, a connection error, another request exception, or a completed
HTTP response carrying a status code and a (parsed) body. -/
inductive AttemptOutcome where
  | timeout : AttemptOutcome
  | connError : AttemptOutcome
  | reqExc (msg : String) : AttemptOutcome
  | completed (status : Int) (body : Json) : AttemptOutcome

/-- State left by the retry loop of `APIClient.make_request` lines 129-155:
how many times `session.request` was invoked, the backoff delays slept, the
completed response if any, and the last error message. -/
structure LoopOut where
  calls : Nat
  sleeps : List ℚ
  response : Option (Int × Json)
  lastError : Option String

/-- The `while True` retry loop of `APIClient.make_request` lines 135-154,
with the attempt counter replaced by `remaining = retries - attempt`:
a completed response or a non-network `RequestException` breaks
immediately; a timeout or connection error records its message and, while
`attempt < retries`, sleeps `backoff_seconds` and doubles it capped at 5. -/
def requestLoop (client : Nat → AttemptOutcome) (timeout : Nat) :
    Nat → Nat → ℚ → Option String → List ℚ → LoopOut
  | remaining, callIdx, backoff, lastError, sleeps =>
    match client callIdx with
    | .completed s b => ⟨callIdx + 1, sleeps, some (s, b), lastError⟩
    | .reqExc m => ⟨callIdx + 1, sleeps, none, some ("Request failed: " ++ m)⟩
    | .timeout =>
      match remaining with
      | 0 => ⟨callIdx + 1, sleeps, none,
          some ("Request timeout after " ++ toString timeout ++ " seconds")⟩
      | r + 1 =>
        requestLoop client timeout r (callIdx + 1) (min (backoff * 2) 5)
          (some ("Request timeout after " ++ toString timeout ++ " seconds"))
          (sleeps ++ [backoff])
    | .connError =>
      match remaining with
      | 0 => ⟨callIdx + 1, sleeps, none,
          some "Connection error - unable to reach the server"⟩
      | r + 1 =>
        requestLoop client timeout r (callIdx + 1) (min (backoff * 2) 5)
          (some "Connection error - unable to reach the server")
          (sleeps ++ [backoff])

/-- `APIResponse` (src/runners/api_client.py lines 16-42): `success` is
`status_code is not None and 200 <= status_code < 300`. -/
structure APIResponseM where
  status_code : Option Int
  data : Option Json
  error : Option String
  success : Bool

/-- `APIClient.make_request` (src/runners/api_client.py lines 126-195) with
the HTTP session abstracted as the per-attempt outcome `client`: run the
retry loop from attempt 0 with `backoff_seconds = 0.5`; if no response was
obtained return `APIResponse(error=last_error)`, otherwise build the
response record (body parsing abstracted into the completed outcome). -/
def make_request (client : Nat → AttemptOutcome) (timeout retries : Nat) : APIResponseM :=
  let r := requestLoop client timeout retries 0 (1 / 2) none []
  match r.response with
  | none => { status_code := none, data := none, error := r.lastError, success := false }
  | some (s, b) =>
      { status_code := some s, data := some b, error := none,
        success := decide (200 ≤ s ∧ s < 300) }

/-- The backoff sequence slept by a run of `n` retried attempts starting
from delay `b`: each delay doubles, capped at 5. -/
def backoffChain : Nat → ℚ → List ℚ
  | 0, _ => []
  | n + 1, b => b :: backoffChain n (min (b * 2) 5)

theorem requestLoop_timeout (client : Nat → AttemptOutcome) (timeout : Nat)
    (hc : ∀ n, client n = .timeout) :
    ∀ (remaining callIdx : Nat) (backoff : ℚ) (le : Option String) (sleeps : List ℚ),
    requestLoop client timeout remaining callIdx backoff le sleeps =
      ⟨callIdx + remaining + 1, sleeps ++ backoffChain remaining backoff, none,
        some ("Request timeout after " ++ toString timeout ++ " seconds")⟩ := by
  intro remaining
  induction remaining with
  | zero =>
    intro callIdx backoff le sleeps
    rw [requestLoop, hc]
    simp [backoffChain]
  | succ r ih =>
    intro callIdx backoff le sleeps
    rw [requestLoop, hc, ih]
    simp [backoffChain]
    omega

theorem backoffChain_closed (n : Nat) :
    ∀ k : Nat, backoffChain n (min ((1 / 2) * 2 ^ k) 5) =
      (List.range n).map (fun i => min ((1 / 2 : ℚ) * 2 ^ (k + i)) 5) := by
  induction n with
  | zero => intro k; simp [backoffChain]
  | succ n ih =>
    intro k
    have hstep : min (min ((1 / 2 : ℚ) * 2 ^ k) 5 * 2) 5 = min ((1 / 2) * 2 ^ (k + 1)) 5 := by
      rcases le_total ((1 / 2 : ℚ) * 2 ^ k) 5 with h | h
      · rw [min_eq_left h, pow_succ]
        ring_nf
      · rw [min_eq_right h]
        have h2 : (5 : ℚ) ≤ (1 / 2) * 2 ^ (k + 1) := by
          rw [pow_succ]
          nlinarith
        rw [min_eq_right h2]
        norm_num
    rw [backoffChain, hstep, ih (k + 1), List.range_succ_eq_map]
    simp [List.map_map, Function.comp]
    intro a ha
    rw [show k + 1 + a = k + (a + 1) from by omega]

/-- C4: the execution client retries only timeouts and connection errors
with exponential backoff 0.5, 1, 2, ... capped at 5; a client that always
times out is attempted exactly retries + 1 times and yields an error
outcome without raising; a completed response of any status, 4xx/5xx
included, is returned after a single attempt, and a non-network request
exception fails immediately after a single attempt. -/
theorem claim4_retry_and_backoff :
    (∀ (client : Nat → AttemptOutcome) (timeout retries : Nat),
        (∀ n, client n = .timeout) →
        (requestLoop client timeout retries 0 (1 / 2) none []).calls = retries + 1 ∧
        (requestLoop client timeout retries 0 (1 / 2) none []).sleeps =
          (List.range retries).map (fun i => min ((1 / 2 : ℚ) * 2 ^ i) 5) ∧
        make_request client timeout retries =
          { status_code := none, data := none,
            error := some ("Request timeout after " ++ toString timeout ++ " seconds"),
            success := false }) ∧
    (∀ (client : Nat → AttemptOutcome) (timeout retries : Nat) (s : Int) (b : Json),
        client 0 = .completed s b →
        (requestLoop client timeout retries 0 (1 / 2) none []).calls = 1 ∧
        make_request client timeout retries =
          { status_code := some s, data := some b, error := none,
            success := decide (200 ≤ s ∧ s < 300) }) ∧
    (∀ (client : Nat → AttemptOutcome) (timeout retries : Nat) (m : String),
        client 0 = .reqExc m →
        (requestLoop client timeout retries 0 (1 / 2) none []).calls = 1 ∧
        make_request client timeout retries =
          { status_code := none, data := none, error := some ("Request failed: " ++ m),
            success := false }) := by
  refine ⟨?_, ?_, ?_⟩
  · intro client timeout retries hc
    have hrun := requestLoop_timeout client timeout hc retries 0 (1 / 2) none []
    have hchain := backoffChain_closed retries 0
    rw [show min ((1 / 2 : ℚ) * 2 ^ 0) 5 = 1 / 2 from by norm_num] at hchain
    simp only [Nat.zero_add] at hchain
    refine ⟨?_, ?_, ?_⟩
    · rw [hrun]
      show 0 + retries + 1 = retries + 1
      omega
    · rw [hrun]
      show [] ++ backoffChain retries (1 / 2) = _
      rw [List.nil_append, hchain]
    · unfold make_request
      rw [hrun]
  · intro client timeout retries s b hc
    have key : requestLoop client timeout retries 0 (1 / 2) none [] =
        ⟨1, [], some (s, b), none⟩ := by
      cases retries with
      | zero => rw [requestLoop, hc]
      | succ r => rw [requestLoop, hc]
    refine ⟨by rw [key], ?_⟩
    unfold make_request
    rw [key]
  · intro client timeout retries m hc
    have key : requestLoop client timeout retries 0 (1 / 2) none [] =
        ⟨1, [], none, some ("Request failed: " ++ m)⟩ := by
      cases retries with
      | zero => rw [requestLoop, hc]
      | succ r => rw [requestLoop, hc]
    refine ⟨by rw [key], ?_⟩
    unfold make_request
    rw [key]

/-- Witness for C4: an always-timing-out client with 3 retries makes 4
attempts, sleeps 0.5, 1, 2, and returns the timeout error outcome; a
client completing immediately with status 500 is never retried; a client
raising a non-network exception fails after one attempt. -/
theorem claim4_retry_and_backoff_witness :
    ((requestLoop (fun _ => .timeout) 30 3 0 (1 / 2) none []).calls = 3 + 1 ∧
     (requestLoop (fun _ => .timeout) 30 3 0 (1 / 2) none []).sleeps =
       (List.range 3).map (fun i => min ((1 / 2 : ℚ) * 2 ^ i) 5) ∧
     make_request (fun _ => .timeout) 30 3 =
       { status_code := none, data := none,
         error := some ("Request timeout after " ++ toString 30 ++ " seconds"),
         success := false }) ∧
    ((requestLoop (fun _ => .completed 500 .null) 30 3 0 (1 / 2) none []).calls = 1 ∧
     make_request (fun _ => .completed 500 .null) 30 3 =
       { status_code := some 500, data := some .null, error := none,
         success := decide (200 ≤ (500 : Int) ∧ (500 : Int) < 300) }) :=
  ⟨claim4_retry_and_backoff.1 (fun _ => .timeout) 30 3 (fun _ => rfl),
   claim4_retry_and_backoff.2.1 (fun _ => .completed 500 .null) 30 3 500 .null rfl⟩

/-- The slice of the result dict read by `validate_response`
(src/sat_core/reporting.py lines 45 and 61-66): `result.get("status_code")`
and `result.get("data")`, either of which may be absent or None. -/
structure ApiResult where
  status_code : Option Int
  data : Option Json

/-- The `status_validation` entry of the details dict
(src/sat_core/reporting.py lines 46-50). -/
structure StatusValidation where
  expected : Option Int
  actual : Option Int
  passed : Bool
deriving DecidableEq

/-- The details dict built by `validate_response`: `schema_validation` is
None or a one-key dict recorded here as its `passed` flag. -/
structure ValidationDetails where
  status_validation : StatusValidation
  schema_validation : Option Bool
  errors : List String
deriving DecidableEq

/-- Python string form of the status code interpolated into the skip
message. -/
def showStatus : Option Int → String
  | none => "None"
  | some n => toString n

/-- Json type-membership test of draft-07 `type`. -/
def jsonHasType : Json → String → Bool
  | .obj _, "object" => true
  | .arr _, "array" => true
  | .str _, "string" => true
  | .num _, "integer" => true
  | .num _, "number" => true
  | .bool _, "boolean" => true
  | .null, "null" => true
  | _, _ => false

/-- First property named by a draft-07 `required` list that is missing
from the object fields. -/
def firstMissing : List Json → List (String × Json) → Option String
  | [], _ => none
  | .str r :: rest, fields =>
    if (lookupField fields r).isSome then firstMissing rest fields else some r
  | _ :: rest, fields => firstMissing rest fields

/-- Modelled from the spec: `Draft7Validator(schema).validate(data)` of the
external jsonschema library (a third-party dependency, not in src/), for
the schema fragment the claims exercise — the `type` and `required`
keywords, processed in schema key order; the result is the message of the
first ValidationError raised, or none when the data conforms.  The
required-property message mirrors the library's
"\x27name\x27 is a required property". -/
def draft7FirstError : List (String × Json) → Json → Option String
  | [], _ => none
  | ("type", .str t) :: rest, data =>
    if jsonHasType data t then draft7FirstError rest data
    else some ("is not of type \x27" ++ t ++ "\x27")
  | ("required", .arr reqs) :: rest, data =>
    (match data with
     | .obj fields =>
       match firstMissing reqs fields with
       | some r => some ("\x27" ++ r ++ "\x27 is a required property")
       | none => draft7FirstError rest data
     | _ => draft7FirstError rest data)
  | _ :: rest, data => draft7FirstError rest data

/-- `validate_response` from src/sat_core/reporting.py lines 40-73.
`expected_schema` is None or a dict (its callers parse it so); Python
truthiness makes both None and the empty dict skip the schema block.  The
schema check runs only when the status matched; a missing body records a
schema failure and an error but does not flip `passed`. -/
def validate_response (result : ApiResult) (expected_status : Option Int)
    (expected_schema : Option (List (String × Json))) : Bool × ValidationDetails :=
  let status_ok := decide (result.status_code = expected_status)
  let sv : StatusValidation := ⟨expected_status, result.status_code, status_ok⟩
  match expected_schema with
  | none => (status_ok, ⟨sv, none, []⟩)
  | some fields =>
    if fields.isEmpty then (status_ok, ⟨sv, none, []⟩)
    else if status_ok = false then
      (false, ⟨sv, some false,
        ["Schema skipped due to failed status code (" ++ showStatus result.status_code ++ ")"]⟩)
    else
      match result.data with
      | none => (status_ok, ⟨sv, some false, ["Response data missing or None."]⟩)
      | some d =>
        match draft7FirstError fields d with
        | none => (status_ok, ⟨sv, some true, []⟩)
        | some e => (false, ⟨sv, some false, [e]⟩)

/-- C7: the validator checks the status by exact equality and on mismatch
fails immediately with the schema check skipped and recorded; concretely,
expected 201 with actual 201 and a schema requiring property id passes on
body with id 7, fails with a missing-required-property id detail on the
empty body, and expected 201 with actual 500 fails with the schema check
skipped. -/
theorem claim7_validator_status_and_scenarios :
    (∀ (result : ApiResult) (es : Option Int) (esch : Option (List (String × Json))),
        (validate_response result es esch).2.status_validation =
          ⟨es, result.status_code, decide (result.status_code = es)⟩) ∧
    (∀ (result : ApiResult) (es : Option Int) (fields : List (String × Json)),
        fields ≠ [] → result.status_code ≠ es →
        validate_response result es (some fields) =
          (false, ⟨⟨es, result.status_code, false⟩, some false,
            ["Schema skipped due to failed status code (" ++ showStatus result.status_code ++ ")"]⟩)) ∧
    validate_response ⟨some 201, some (.obj [("id", .num 7)])⟩ (some 201)
        (some [("type", .str "object"), ("required", .arr [.str "id"])]) =
      (true, ⟨⟨some 201, some 201, true⟩, some true, []⟩) ∧
    validate_response ⟨some 201, some (.obj [])⟩ (some 201)
        (some [("type", .str "object"), ("required", .arr [.str "id"])]) =
      (false, ⟨⟨some 201, some 201, true⟩, some false,
        ["\x27id\x27 is a required property"]⟩) ∧
    validate_response ⟨some 500, some (.obj [])⟩ (some 201)
        (some [("type", .str "object"), ("required", .arr [.str "id"])]) =
      (false, ⟨⟨some 201, some 500, false⟩, some false,
        ["Schema skipped due to failed status code (500)"]⟩) := by
  refine ⟨?_, ?_, by rfl, by rfl, by rfl⟩
  · intro result es esch
    unfold validate_response
    repeat' split
    all_goals try rfl
    all_goals (dsimp only; split <;> rfl)
  · intro result es fields hf hne
    have hs : decide (result.status_code = es) = false := by
      simpa using hne
    have hf2 : fields.isEmpty = false := by
      cases fields with
      | nil => exact absurd rfl hf
      | cons a l => rfl
    simp [validate_response, hf2, hs]

/-- Witness for C7: the mismatch branch applied at expected 201, actual
404, and a nonempty schema. -/
theorem claim7_validator_status_and_scenarios_witness :
    validate_response ⟨some 404, none⟩ (some 201) (some [("type", .str "object")]) =
      (false, ⟨⟨some 201, some 404, false⟩, some false,
        ["Schema skipped due to failed status code (404)"]⟩) :=
  claim7_validator_status_and_scenarios.2.1 ⟨some 404, none⟩ (some 201)
    [("type", .str "object")] (by simp) (by simp)

/-- C9 (implicit): when the status matches, the schema is nonempty and the
response body is None, `validate_response` records a failed schema
validation and the error "Response data missing or None." yet still
returns passed = true: the missing-body schema failure never flips the
boolean verdict. -/
theorem claim9_missing_body_still_passes :
    ∀ (st : Option Int) (fields : List (String × Json)), fields ≠ [] →
    validate_response ⟨st, none⟩ st (some fields) =
      (true, ⟨⟨st, st, true⟩, some false, ["Response data missing or None."]⟩) := by
  intro st fields hf
  have hf2 : fields.isEmpty = false := by
    cases fields with
    | nil => exact absurd rfl hf
    | cons a l => rfl
  simp [validate_response, hf2]

/-- Witness for C9: status 200 matching, schema requiring the object type,
body None. -/
theorem claim9_missing_body_still_passes_witness :
    validate_response ⟨some 200, none⟩ (some 200) (some [("type", .str "object")]) =
      (true, ⟨⟨some 200, some 200, true⟩, some false,
        ["Response data missing or None."]⟩) :=
  claim9_missing_body_still_passes (some 200) [("type", .str "object")] (by simp)

mutual

/-- Python `==` on decoded JSON values (used for dict keys such as the
resolved url in the execution-logs dict). -/
def jsonBEq : Json → Json → Bool
  | .null, .null => true
  | .bool a, .bool b => a == b
  | .num a, .num b => a == b
  | .str a, .str b => a == b
  | .arr a, .arr b => jsonItemsBEq a b
  | .obj a, .obj b => jsonFieldsBEq a b
  | _, _ => false

/-- Elementwise equality of JSON arrays. -/
def jsonItemsBEq : List Json → List Json → Bool
  | [], [] => true
  | a :: as2, b :: bs => jsonBEq a b && jsonItemsBEq as2 bs
  | _, _ => false

/-- Entrywise equality of JSON objects (association lists in order). -/
def jsonFieldsBEq : List (String × Json) → List (String × Json) → Bool
  | [], [] => true
  | (k1, v1) :: as2, (k2, v2) :: bs => k1 == k2 && jsonBEq v1 v2 && jsonFieldsBEq as2 bs
  | _, _ => false

end

/-- Python dict assignment `d[k] = v` on an insertion-ordered association
list: replace the value at the first key equal to k (keeping the stored
key and its position), else append at the end. -/
def pyDictSet {κ ν : Type} (eqk : κ → κ → Bool) : List (κ × ν) → κ → ν → List (κ × ν)
  | [], k, v => [(k, v)]
  | (k0, v0) :: rest, k, v =>
    if eqk k0 k then (k0, v) :: rest else (k0, v0) :: pyDictSet eqk rest k v

/-- Python dict lookup `d.get(k)` on an association list. -/
def pyDictGet {κ ν : Type} (eqk : κ → κ → Bool) : List (κ × ν) → κ → Option ν
  | [], _ => none
  | (k0, v0) :: rest, k => if eqk k0 k then some v0 else pyDictGet eqk rest k

/-- String key equality used by the test_name-keyed execution logs. -/
def beqStr (a b : String) : Bool := a == b

/-- Endpoint-id key equality used by the endpoint_tables dict. -/
def beqNat (a b : Nat) : Bool := a == b

/-- The columns of the first table row read by `run_positive_flow`
(src/sat_core/run_positive_flow.py lines 56-68 and 99-137).
`expected_status` and `expected_schema` carry the values produced by the
parsing at lines 122-135 (conversion of DB text is external I/O and never
raises out of its try/except). -/
structure Row where
  test_name : String
  method : Json
  url : Json
  headers : Json
  query_params : Json
  input_payload : Json
  expected_status : Option Int
  expected_schema : Option (List (String × Json))

/-- The `llm_input` dict of src/sat_core/run_positive_flow.py lines 63-68. -/
def mkLlmInput (row : Row) : Json :=
  .obj [("url", row.url), ("headers", row.headers),
        ("query_params", row.query_params), ("input_payload", row.input_payload)]

/-- The enrichment try/except of src/sat_core/run_positive_flow.py lines
91-97: the oracle text after fence stripping goes through `json.loads`
(externally, modelled by its outcome `parsed`); any exception falls back
to `llm_input`.  No check that the parsed value is a dict is made. -/
def enrich (parsed : Except Unit Json) (llm_input : Json) : Json :=
  match parsed with
  | .error _ => llm_input
  | .ok j => j

/-- `TestDataGenerator._parse_generation_response` from
src/runners/test_executor.py lines 126-156: returns the parsed JSON value
unchecked, or `fallback_data` on any parse exception. -/
def parse_generation_response (parsed : Except Unit Json) (fallback_data : Json) : Json :=
  match parsed with
  | .ok j => j
  | .error _ => fallback_data

/-- The `execution_case` dict of src/sat_core/run_positive_flow.py lines
99-106. -/
structure ExecutionCase where
  url : Json
  method : Json
  headers : Json
  query_params : Json
  payload : Json
  test_description : String

/-- Building `execution_case` (lines 99-106): every field is read with
`enriched_fields.get(...)`, which raises AttributeError when
`enriched_fields` is not a dict (modelled `.error ()`); the url key has no
default (a missing key gives Python None, i.e. null). -/
def buildExecutionCase (enriched : Json) (row : Row) : Except Unit ExecutionCase :=
  match enriched with
  | .obj fs =>
    .ok { url := (lookupField fs "url").getD .null,
          method := row.method,
          headers := (lookupField fs "headers").getD row.headers,
          query_params := (lookupField fs "query_params").getD row.query_params,
          payload := (lookupField fs "input_payload").getD row.input_payload,
          test_description := row.test_name }
  | _ => .error ()

/-- The execution case built from the unmodified template row. -/
def templateCase (row : Row) : ExecutionCase :=
  ⟨row.url, row.method, row.headers, row.query_params, row.input_payload, row.test_name⟩

/-- One `execution_logs` entry: `{"request": ..., "response": ...}`. -/
structure LogRecord where
  request : ExecutionCase
  response : ApiResult

/-- The per-item body of the `run_positive_flow` loop
(src/sat_core/run_positive_flow.py lines 89-148): enrich the template with
the oracle output, build the execution case (raising when the parsed value
is not a dict), call the API (abstracted as `callApi`), store the record
in `execution_logs` under the resolved url, and validate the response.
Allure and DB writes are external side effects. -/
def run_positive_flow_step (parsed : Except Unit Json) (row : Row)
    (callApi : ExecutionCase → ApiResult) (logs : List (Json × LogRecord)) :
    Except Unit (ExecutionCase × List (Json × LogRecord) × (Bool × ValidationDetails)) :=
  match buildExecutionCase (enrich parsed (mkLlmInput row)) row with
  | .error _ => .error ()
  | .ok ec =>
    .ok (ec, pyDictSet jsonBEq logs ec.url ⟨ec, callApi ec⟩,
      validate_response (callApi ec) row.expected_status row.expected_schema)

/-- `endpoint_tables.get(current_id)` followed by `if not table_name:
continue` (src/sat_core/run_positive_flow.py lines 52-54): a missing id or
a falsy (empty) table name skips the item. -/
def lookupTable (tables : List (Nat × String)) (id : Nat) : Option String :=
  match pyDictGet beqNat tables id with
  | none => none
  | some "" => none
  | some t => some t

/-- The `run_positive_flow` loop over the execution order
(src/sat_core/run_positive_flow.py lines 48-166): items whose endpoint id
has no table are skipped with `continue` and leave no trace in the logs;
an empty table (fetchone returning None, so `first_row.get` raises) and a
non-dict enrichment output abort the run. -/
def run_positive_flow (tables : List (Nat × String)) (firstRow : String → Option Row)
    (oracle : Nat → Except Unit Json) (callApi : ExecutionCase → ApiResult) :
    List Nat → List (Json × LogRecord) → Except Unit (List (Json × LogRecord))
  | [], logs => .ok logs
  | id :: rest, logs =>
    match lookupTable tables id with
    | none => run_positive_flow tables firstRow oracle callApi rest logs
    | some tname =>
      match firstRow tname with
      | none => .error ()
      | some row =>
        match run_positive_flow_step (oracle id) row callApi logs with
        | .error _ => .error ()
        | .ok (_, logs2, _) => run_positive_flow tables firstRow oracle callApi rest logs2

/-- A stored test case as read by `TestExecutor.execute_test_case`
(src/runners/test_executor.py lines 321-327). -/
structure TestCaseT where
  test_name : String
  method : Json
  url : Json
  headers : Json
  query_params : Json
  input_payload : Json

/-- The `request_data` dict of src/runners/test_executor.py lines 321-327:
each field read with `generated_data.get(key, test_case[key])`. -/
structure RequestData where
  url : Json
  method : Json
  headers : Json
  query_params : Json
  payload : Json

/-- Building `request_data`: raises AttributeError when `generated_data`
is not a dict (`.get` on a non-dict), which aborts the executor. -/
def buildRequestData (generated : Json) (tc : TestCaseT) : Except Unit RequestData :=
  match generated with
  | .obj fs =>
    .ok ⟨(lookupField fs "url").getD tc.url, tc.method,
         (lookupField fs "headers").getD tc.headers,
         (lookupField fs "query_params").getD tc.query_params,
         (lookupField fs "input_payload").getD tc.input_payload⟩
  | _ => .error ()

/-- One `self.execution_logs` entry of the test executor. -/
structure LogRecord2 where
  request : RequestData
  response : ApiResult

/-- `TestExecutor.execute_test_case` (src/runners/test_executor.py lines
295-347) with data generation and the API client abstracted: build the
request, call the API and assign
`self.execution_logs[test_case["test_name"]] = execution_log`. -/
def execute_test_case (generated : Json) (tc : TestCaseT)
    (callApi : RequestData → ApiResult) (logs : List (String × LogRecord2)) :
    Except Unit (List (String × LogRecord2)) :=
  match buildRequestData generated tc with
  | .error _ => .error ()
  | .ok rd => .ok (pyDictSet beqStr logs tc.test_name ⟨rd, callApi rd⟩)

/-- `TestExecutor._execute_test_case_by_id` (src/runners/test_executor.py
lines 410-420): search every table for the id; the first hit is executed
(`runTC` abstracts `execute_test_case` on the found case); when no table
holds the id, only a warning is logged and the logs are left unchanged. -/
def execute_test_case_by_id (getById : String → Nat → Option TestCaseT)
    (runTC : TestCaseT → List (String × LogRecord2) →
      Except Unit (List (String × LogRecord2))) (id : Nat) :
    List String → List (String × LogRecord2) → Except Unit (List (String × LogRecord2))
  | [], logs => .ok logs
  | t :: ts, logs =>
    match getById t id with
    | some tc => runTC tc logs
    | none => execute_test_case_by_id getById runTC id ts logs
